import Mathlib

/-!
# QnaGen: quiz generation and scoring

A shallow embedding of the request handlers of `Server/index.js`
(`/api/generate-quiz`, `/api/score`) and of the session handlers of
`Front End/src/App.jsx` (`handleAnswerChange`, `handleSubmitQuiz`,
`handleReset`), followed by theorems about them.

Modelling conventions.

* A JavaScript value that travels as JSON is a `JVal`.  The JavaScript value
  `undefined` is not a JSON value; an expression that may evaluate to
  `undefined` has type `Option JVal`, with `none` standing for `undefined`.
* Numbers are restricted to integers (`JVal.num`); fractional numbers are
  floating point and outside the embedding.  The conversion of a number to a
  string is its decimal representation, which is what JavaScript prints for
  the safe integers (`isSafeInteger`); the theorems that depend on the text
  of a converted number assume that it is a safe integer.
* JavaScript strings are Lean strings.
* Reading a property of `null` or `undefined`, and converting to a string an
  object that has an own property `toString`, throws a `TypeError`; functions
  that may throw return `Option` and the handlers map the exception to what
  the surrounding code does with it.
* A property read with one of the fixed names of the handlers (`id`,
  `question`, `correctAnswer`, `questions`, `answers`, `transcript`,
  `maxQuestions`, `error`, `length`) sees own properties only (`getProp`): no
  prototype defines these names.  A read with a computed key on a plain
  object also sees the members inherited from `Object.prototype`
  (`readKey`).
-/

set_option autoImplicit false

namespace QnaGen

/-! ## JSON values and the JavaScript operations used by the handlers -/

/-- A JSON value, as produced by `JSON.parse` / `express.json()`. -/
inductive JVal where
  | null
  | bool (b : Bool)
  | num (n : Int)
  | str (s : String)
  | arr (items : List JVal)
  | obj (props : List (String × JVal))

instance : Inhabited JVal := ⟨JVal.null⟩

/-- Own-property lookup in a property list (first binding of the key). -/
def lookupProp (key : String) : List (String × JVal) → Option JVal
  | [] => none
  | (k, v) :: rest => if k = key then some v else lookupProp key rest

/-- Property assignment `o[key] = v` on a property list: an existing key keeps
its position and gets the new value, a new key is appended. -/
def setProp (key : String) (v : JVal) : List (String × JVal) → List (String × JVal)
  | [] => [(key, v)]
  | (k, w) :: rest => if k = key then (k, v) :: rest else (k, w) :: setProp key v rest

/-- JavaScript truthiness (`!!v`); `none` is `undefined`. -/
def truthy : Option JVal → Bool
  | none => false
  | some JVal.null => false
  | some (JVal.bool b) => b
  | some (JVal.num n) => n != 0
  | some (JVal.str s) => s != ""
  | some (JVal.arr _) => true
  | some (JVal.obj _) => true

/-- The test `Array.isArray(v)`. -/
def isArray : Option JVal → Bool
  | some (JVal.arr _) => true
  | _ => false

/-- Strict equality `a === b`.  Two arrays or two objects that come from
different places of a parsed request are different references, hence never
strictly equal. -/
def strictEq : Option JVal → Option JVal → Bool
  | none, none => true
  | some JVal.null, some JVal.null => true
  | some (JVal.bool a), some (JVal.bool b) => a == b
  | some (JVal.num a), some (JVal.num b) => a == b
  | some (JVal.str a), some (JVal.str b) => a == b
  | _, _ => false

/-- Nullish coalescing `v ?? null`. -/
def orNull : Option JVal → JVal
  | none => JVal.null
  | some v => v

/-- The test `Number.isSafeInteger(n)` on an integer: its absolute value is
at most `2^53 - 1`.  For these numbers the decimal representation is the
string JavaScript converts the number to. -/
def isSafeInteger (n : Int) : Bool :=
  decide (-9007199254740992 < n ∧ n < 9007199254740992)

mutual
/-- The conversion `String(v)` of a JSON value, as done by template literals,
by computed property keys and by `new Error(v)`; `none` is the `TypeError`
thrown for an object with an own property `toString` (a JSON value, hence not
callable, that hides `Object.prototype.toString`).  A number is converted to
its decimal representation. -/
def toStr : JVal → Option String
  | JVal.null => some "null"
  | JVal.bool true => some "true"
  | JVal.bool false => some "false"
  | JVal.num n => some (toString n)
  | JVal.str s => some s
  | JVal.arr items => joinItems items
  | JVal.obj props =>
    match lookupProp "toString" props with
    | some _ => none
    | none => some "[object Object]"
/-- The conversion `Array.prototype.join(",")`: `null` elements give the empty
string, the other elements are converted by `String`. -/
def joinItems : List JVal → Option String
  | [] => some ""
  | [JVal.null] => some ""
  | [v] => toStr v
  | JVal.null :: rest =>
    match joinItems rest with
    | some tail => some ("," ++ tail)
    | none => none
  | v :: rest =>
    match toStr v, joinItems rest with
    | some head, some tail => some (head ++ "," ++ tail)
    | _, _ => none
end

/-- The conversion of a possibly undefined value to a string. -/
def toStrU : Option JVal → Option String
  | none => some "undefined"
  | some v => toStr v

/-- The message of the `TypeError` thrown by a failing conversion to a string
(the text of the V8 engine). -/
def conversionErrorMessage : String :=
  "Cannot convert object to primitive value"

/-- The decimal digits of a canonical array index (`"0"`, `"17"`; not `"01"`). -/
def indexOfKey (key : String) : Option Nat :=
  match key.toNat? with
  | some i => if toString i = key then some i else none
  | none => none

/-- Property read `v[key]` on a value that is neither `null` nor `undefined`
(own properties of objects; indices and `length` of arrays and strings).  It
is the read for the fixed property names of the handlers, which no prototype
defines. -/
def getProp (v : JVal) (key : String) : Option JVal :=
  match v with
  | JVal.obj props => lookupProp key props
  | JVal.arr items =>
    if key = "length" then some (JVal.num items.length)
    else match indexOfKey key with
      | some i => items.get? i
      | none => none
  | JVal.str s =>
    if key = "length" then some (JVal.num s.length)
    else match indexOfKey key with
      | some i => (s.data.get? i).map (fun c => JVal.str (String.singleton c))
      | none => none
  | _ => none

/-- Property read `v[key]` on an arbitrary expression value; `none` is the
`TypeError` thrown when `v` is `null` or `undefined`. -/
def getPropE (v : Option JVal) (key : String) : Option (Option JVal) :=
  match v with
  | none => none
  | some JVal.null => none
  | some w => some (getProp w key)

/-- The names of the methods that every plain object inherits from
`Object.prototype`. -/
def objectPrototypeMethods : List String :=
  ["constructor", "__defineGetter__", "__defineSetter__", "hasOwnProperty",
   "__lookupGetter__", "__lookupSetter__", "isPrototypeOf", "propertyIsEnumerable",
   "toString", "valueOf", "toLocaleString"]

/-- What a property read with a computed key finds on a plain object: the
value of an own property or `undefined` (`value`), a function inherited from
`Object.prototype` (`method`), or `Object.prototype` itself, which the
inherited accessor `__proto__` returns (`prototype`). -/
inductive PropRead where
  | value (v : Option JVal)
  | method
  | prototype

/-- Property read `o[key]` on a plain object with the given own properties. -/
def readKey (props : List (String × JVal)) (key : String) : PropRead :=
  match lookupProp key props with
  | some v => PropRead.value (some v)
  | none =>
    if key = "__proto__" then PropRead.prototype
    else if objectPrototypeMethods.contains key then PropRead.method
    else PropRead.value none

/-- Property read `v[key]` with a computed key on a value that is neither
`null` nor `undefined`.  For a value that is not a plain object the read sees
indices and `length`; the members such a value inherits depend on the host
and are not modelled. -/
def readComputed (v : JVal) (key : String) : PropRead :=
  match v with
  | JVal.obj props => readKey props key
  | other => PropRead.value (getProp other key)

/-- Truthiness of what a property read found: functions and objects are truthy. -/
def PropRead.truthy : PropRead → Bool
  | PropRead.value v => QnaGen.truthy v
  | PropRead.method => true
  | PropRead.prototype => true

/-- Strict equality of what a property read found with a JSON value or
`undefined`: a function and `Object.prototype` are equal to neither. -/
def PropRead.strictEq : PropRead → Option JVal → Bool
  | PropRead.value v, w => QnaGen.strictEq v w
  | PropRead.method, _ => false
  | PropRead.prototype, _ => false

/-- The property `x ?? null` of an object literal as `JSON.stringify` writes
it: a function is left out, `Object.prototype` is written as the empty object. -/
def PropRead.orNullJson : PropRead → Option JVal
  | PropRead.value v => some (orNull v)
  | PropRead.method => none
  | PropRead.prototype => some (JVal.obj [])

/-- An object literal as it is serialised by `res.json` / `JSON.stringify`:
properties whose value is `undefined` are left out. -/
def mkObj : List (String × Option JVal) → List (String × JVal)
  | [] => []
  | (k, some v) :: rest => (k, v) :: mkObj rest
  | (_, none) :: rest => mkObj rest

/-- What a handler does with a request: it sends a JSON body with a status,
or it throws and the framework's default error handler answers. -/
inductive Response where
  | json (status : Nat) (body : JVal)
  | uncaught

/-- The value of `req.body || {}`. -/
def bodyOrEmpty (body : Option JVal) : JVal :=
  if truthy body then orNull body else JVal.obj []

/-! ## `POST /api/score` -/

/-- The callback of `questions.map` for one question `q`: the detail record
and whether `correct` is incremented.  `none` is a `TypeError`: of reading
`q.id` when `q` is `null`, or of converting `q.id` to a property key. -/
def scoreDetail (answers : JVal) (q : JVal) : Option (JVal × Bool) :=
  match getPropE (some q) "id" with
  | none => none
  | some id =>
    match toStrU id with
    | none => none
    | some key =>
      let userAnswer := readComputed answers key
      let correctAnswer := getProp q "correctAnswer"
      let isCorrect := userAnswer.strictEq correctAnswer
      some (JVal.obj (mkObj [("id", id), ("question", getProp q "question"),
          ("correctAnswer", correctAnswer), ("userAnswer", userAnswer.orNullJson),
          ("isCorrect", some (JVal.bool isCorrect))]), isCorrect)

/-- The loop `questions.map(...)` with its counter `correct`: the details in
input order and the final value of `correct`. -/
def scoreLoop (answers : JVal) : List JVal → Nat → Option (List JVal × Nat)
  | [], correct => some ([], correct)
  | q :: rest, correct =>
    match scoreDetail answers q with
    | none => none
    | some (d, isCorrect) =>
      match scoreLoop answers rest (if isCorrect then correct + 1 else correct) with
      | none => none
      | some (ds, c) => some (d :: ds, c)

/-- The error body of the argument check of `/api/score`. -/
def scoreArgError : JVal :=
  JVal.obj [("error", JVal.str "Missing 'questions' array or 'answers' object.")]

/-- The body of the `/api/score` handler after destructuring `questions` and
`answers` from the request body. -/
def score (questions answers : Option JVal) : Response :=
  if !isArray questions || !truthy answers then Response.json 400 scoreArgError
  else
    match questions, answers with
    | some (JVal.arr qs), some a =>
      match scoreLoop a qs 0 with
      | none => Response.uncaught
      | some (details, correct) =>
        Response.json 200 (JVal.obj [("total", JVal.num qs.length),
          ("correct", JVal.num correct), ("details", JVal.arr details)])
    | _, _ => Response.uncaught

/-- The handler `app.post("/api/score", ...)` on a request body. -/
def scoreHandler (body : Option JVal) : Response :=
  let b := bodyOrEmpty body
  score (getProp b "questions") (getProp b "answers")

/-! ## `JSON.parse`

A reference model of the library function `JSON.parse`, used to evaluate the
handlers on concrete response texts.  It covers the JSON grammar with number
literals that are safe integers; a literal with a fraction or an exponent, an
integer literal outside the safe range, and a string with an escaped
surrogate half, are outside the embedding and are not parsed.  The theorems that quantify over response texts
take the parser as a parameter and hold for every parser. -/

/-- JSON white space. -/
def isJsonSpace (c : Char) : Bool :=
  c = ' ' || c = '\t' || c = '\n' || c = '\r'

/-- Skips JSON white space. -/
def skipWs (cs : List Char) : List Char :=
  cs.dropWhile isJsonSpace

/-- The value of a hexadecimal digit. -/
def hexVal (c : Char) : Option Nat :=
  if '0' ≤ c ∧ c ≤ '9' then some (c.toNat - 48)
  else if 'a' ≤ c ∧ c ≤ 'f' then some (c.toNat - 87)
  else if 'A' ≤ c ∧ c ≤ 'F' then some (c.toNat - 55)
  else none

/-- The character of a `\u` escape with four hexadecimal digits.  An escape of
a surrogate half has no character of its own and is not parsed. -/
def hex4 (a b c d : Char) : Option Char :=
  match hexVal a, hexVal b, hexVal c, hexVal d with
  | some w, some x, some y, some z =>
    let n := ((w * 16 + x) * 16 + y) * 16 + z
    if 0xD800 ≤ n ∧ n ≤ 0xDFFF then none else some (Char.ofNat n)
  | _, _, _, _ => none

/-- The characters of a string literal after its opening quote, up to the
closing quote; `acc` holds the characters read so far, last first. -/
def parseStringBody : List Char → List Char → Option (String × List Char)
  | [], _ => none
  | '"' :: rest, acc => some (String.mk acc.reverse, rest)
  | '\\' :: 'u' :: a :: b :: c :: d :: rest, acc =>
    match hex4 a b c d with
    | some ch => parseStringBody rest (ch :: acc)
    | none => none
  | '\\' :: e :: rest, acc =>
    if e = '"' then parseStringBody rest ('"' :: acc)
    else if e = '\\' then parseStringBody rest ('\\' :: acc)
    else if e = '/' then parseStringBody rest ('/' :: acc)
    else if e = 'b' then parseStringBody rest (Char.ofNat 8 :: acc)
    else if e = 'f' then parseStringBody rest (Char.ofNat 12 :: acc)
    else if e = 'n' then parseStringBody rest ('\n' :: acc)
    else if e = 'r' then parseStringBody rest ('\r' :: acc)
    else if e = 't' then parseStringBody rest ('\t' :: acc)
    else none
  | c :: rest, acc =>
    if c.toNat < 32 ∨ c = '\\' then none else parseStringBody rest (c :: acc)

/-- The value of a run of decimal digits. -/
def digitsToNat (ds : List Char) : Nat :=
  ds.foldl (fun n c => 10 * n + (c.toNat - 48)) 0

/-- An integer literal: an optional minus sign and digits without a leading
zero.  A literal with a fraction or an exponent, and a literal that is not a
safe integer (which `JSON.parse` may round), are not parsed. -/
def parseNumber (cs : List Char) : Option (Int × List Char) :=
  let negative := cs.head? = some '-'
  let body := if negative then cs.drop 1 else cs
  let ds := body.takeWhile Char.isDigit
  let rest := body.dropWhile Char.isDigit
  if ds.isEmpty then none
  else if ds.head? = some '0' ∧ ds.length > 1 then none
  else if rest.head? = some '.' ∨ rest.head? = some 'e' ∨ rest.head? = some 'E' then none
  else if !isSafeInteger (digitsToNat ds : Int) then none
  else some (if negative then -(digitsToNat ds : Int) else (digitsToNat ds : Int), rest)

mutual
/-- One JSON value at the head of the input, and the input after it. -/
def parseValue : Nat → List Char → Option (JVal × List Char)
  | 0, _ => none
  | fuel + 1, cs =>
    match skipWs cs with
    | 'n' :: 'u' :: 'l' :: 'l' :: rest => some (JVal.null, rest)
    | 't' :: 'r' :: 'u' :: 'e' :: rest => some (JVal.bool true, rest)
    | 'f' :: 'a' :: 'l' :: 's' :: 'e' :: rest => some (JVal.bool false, rest)
    | '"' :: rest =>
      match parseStringBody rest [] with
      | some (s, r) => some (JVal.str s, r)
      | none => none
    | '[' :: rest =>
      match skipWs rest with
      | ']' :: r => some (JVal.arr [], r)
      | r => parseElements fuel r []
    | '\x7b' :: rest =>
      match skipWs rest with
      | '\x7d' :: r => some (JVal.obj [], r)
      | r => parseMembers fuel r []
    | other =>
      match parseNumber other with
      | some (n, r) => some (JVal.num n, r)
      | none => none
/-- The elements of an array after its opening bracket, up to the closing one. -/
def parseElements : Nat → List Char → List JVal → Option (JVal × List Char)
  | 0, _, _ => none
  | fuel + 1, cs, acc =>
    match parseValue fuel cs with
    | none => none
    | some (v, rest) =>
      match skipWs rest with
      | ',' :: r => parseElements fuel r (acc ++ [v])
      | ']' :: r => some (JVal.arr (acc ++ [v]), r)
      | _ => none
/-- The members of an object after its opening brace, up to the closing one;
a repeated key keeps its place and takes the later value. -/
def parseMembers : Nat → List Char → List (String × JVal) → Option (JVal × List Char)
  | 0, _, _ => none
  | fuel + 1, cs, acc =>
    match skipWs cs with
    | '"' :: r =>
      match parseStringBody r [] with
      | none => none
      | some (key, r1) =>
        match skipWs r1 with
        | ':' :: r2 =>
          match parseValue fuel r2 with
          | none => none
          | some (v, r3) =>
            match skipWs r3 with
            | ',' :: r4 => parseMembers fuel r4 (setProp key v acc)
            | '\x7d' :: r4 => some (JVal.obj (setProp key v acc), r4)
            | _ => none
        | _ => none
    | _ => none
end

/-- The call `JSON.parse(text)`; `none` when it throws a `SyntaxError`. -/
def jsonParse (text : String) : Option JVal :=
  match parseValue (2 * text.length + 2) text.data with
  | some (v, rest) => if (skipWs rest).isEmpty then some v else none
  | none => none

/-! ## `POST /api/generate-quiz` -/

/-- The text-generation call `model.generateContent(prompt)` followed by
`result.response.text()`: the response text, or the message of the error
that is thrown. -/
abbrev Service := String → Except String String

/-- The prompt template of the handler, with the two interpolated values
already converted to strings. -/
def quizPrompt (transcript maxQuestions : String) : String :=
  "You are creating a quiz from a YouTube video transcript.\nTranscript:\n" ++ transcript ++
  "\n\nGenerate up to " ++ maxQuestions ++
  " multiple-choice questions in JSON format only.\n" ++
  "The JSON should be an array of objects, each with this shape:\n" ++
  "\x7b\n  \"id\": number,\n  \"question\": string,\n  \"options\": string[],\n" ++
  "  \"correctAnswer\": string\n\x7d\n\nRules:\n" ++
  "- Do NOT include any extra text before or after the JSON.\n" ++
  "- Each question must have 4 options.\n" ++
  "- \"correctAnswer\" value must exactly match one of the options."

/-- The pattern of the first `replace`: three backticks followed by `json`. -/
def fenceJson : List Char := "\x60\x60\x60json".data

/-- The pattern of the second `replace`: three backticks. -/
def fence : List Char := "\x60\x60\x60".data

/-- Global replacement of a literal pattern by the empty string, left to
right over non-overlapping matches.  The counter is the number of characters
of the current match that are still to be dropped. -/
def removeAllAux (pat : List Char) : Nat → List Char → List Char
  | _, [] => []
  | skip + 1, _ :: cs => removeAllAux pat skip cs
  | 0, c :: cs =>
    if pat.isPrefixOf (c :: cs) then removeAllAux pat (pat.length - 1) cs
    else c :: removeAllAux pat 0 cs

/-- The call `text.replace(/pat/g, "")` for a non-empty literal pattern. -/
def removeAll (pat : List Char) (text : List Char) : List Char :=
  removeAllAux pat 0 text

/-- The characters removed by `String.prototype.trim`: white space and line
terminators. -/
def isJsSpace (c : Char) : Bool :=
  c = '\t' || c = '\n' || c.toNat = 11 || c.toNat = 12 || c = '\r' || c = ' ' ||
  c.toNat = 0xA0 || c.toNat = 0x1680 || (0x2000 ≤ c.toNat && c.toNat ≤ 0x200A) ||
  c.toNat = 0x2028 || c.toNat = 0x2029 || c.toNat = 0x202F || c.toNat = 0x205F ||
  c.toNat = 0x3000 || c.toNat = 0xFEFF

/-- The call `text.trim()` on a list of characters. -/
def jsTrim (text : List Char) : List Char :=
  (text.dropWhile isJsSpace).rdropWhile isJsSpace

/-- The cleaning step applied to the response text before parsing. -/
def cleanText (text : String) : String :=
  String.mk (jsTrim (removeAll fence (removeAll fenceJson text.data)))

/-- A handler's answer together with the prompts it sent to the
text-generation service, in order. -/
structure Outcome where
  response : Response
  prompts : List String

/-- The error body of the transcript check. -/
def missingTranscript : JVal :=
  JVal.obj [("error", JVal.str "Missing 'transcript' in request body.")]

/-- The error body of the credential check. -/
def missingCredential : JVal :=
  JVal.obj [("error", JVal.str
    "GEMINI_API_KEY is not set. Please set it in your environment before using this endpoint.")]

/-- The error body sent when the cleaned response text does not parse. -/
def invalidJson : JVal :=
  JVal.obj [("error", JVal.str "Gemini response was not valid JSON. Check server logs.")]

/-- The handler `app.post("/api/generate-quiz", ...)`.  `parse` is
`JSON.parse` (`none` when it throws); `genAI` is the client created at
start-up, `none` when `GEMINI_API_KEY` is not set.  Inside the `try` block the
template literal converts `transcript` and `maxQuestions` to strings; a
`TypeError` of that conversion is caught like every other error and answered
with status 500 before any prompt is sent.  The service is called once, for
the one model the handler names: the comment of the source about trying one
model first and falling back to another describes nothing the code does. -/
def generateQuiz (parse : String → Option JVal) (genAI : Option Service)
    (body : Option JVal) : Outcome :=
  let b := bodyOrEmpty body
  let transcript := getProp b "transcript"
  let maxQuestions := match getProp b "maxQuestions" with
    | none => JVal.num 5
    | some v => v
  if !truthy transcript then ⟨Response.json 400 missingTranscript, []⟩
  else
    match genAI with
    | none => ⟨Response.json 500 missingCredential, []⟩
    | some service =>
      match toStrU transcript, toStr maxQuestions with
      | some transcriptText, some maxText =>
        let prompt := quizPrompt transcriptText maxText
        match service prompt with
        | Except.error message =>
          ⟨Response.json 500 (JVal.obj [("error", JVal.str
            (if message != "" then message else "Failed to generate quiz with Gemini."))]),
            [prompt]⟩
        | Except.ok text =>
          match parse (cleanText text) with
          | none => ⟨Response.json 500 invalidJson, [prompt]⟩
          | some questions =>
            ⟨Response.json 200 (JVal.obj [("questions", questions)]), [prompt]⟩
      | _, _ =>
        ⟨Response.json 500 (JVal.obj [("error", JVal.str conversionErrorMessage)]), []⟩

/-! ## The quiz session of the front end (`App.jsx`) -/

/-- The values of `currentStep`. -/
inductive Step where
  | input
  | quiz
  | results
  deriving DecidableEq

/-- The React state of `App`.  `error` is `none` for `null`; `questions` is
`none` for `undefined` and `some JVal.null` for `null`; `answers` is always an
object and is kept as its property list. -/
structure Session where
  youtubeUrl : String
  loading : Bool
  error : Option String
  questions : Option JVal
  answers : List (String × JVal)
  score : JVal
  currentStep : Step

/-- The initial values of the `useState` hooks. -/
def initialSession : Session :=
  ⟨"", false, none, some JVal.null, [], JVal.null, Step.input⟩

/-- The handler `handleAnswerChange(questionId, selectedOption)`: the answer
map gets `selectedOption` under the property key of `questionId`.  When the
conversion of `questionId` to a property key throws, the state updater throws
while React renders and the component tree is unmounted; the embedding has no
state for that and leaves the session as it was. -/
def handleAnswerChange (questionId : Option JVal) (selectedOption : JVal) (s : Session) :
    Session :=
  match toStrU questionId with
  | some key => { s with answers := setProp key selectedOption s.answers }
  | none => s

/-- The handler `handleReset`. -/
def handleReset (s : Session) : Session :=
  { s with youtubeUrl := "", questions := some JVal.null, answers := [], score := JVal.null,
           error := none, currentStep := Step.input }

/-- What `fetch` of `/api/score` followed by `.json()` gives: a rejection with
the error's message, or a response with its `ok` flag and parsed body. -/
inductive FetchResult where
  | failed (message : String)
  | response (ok : Bool) (data : JVal)

/-- The callback of `questions.filter`: `!answers[q.id]`, where `answers` is
a plain object; `none` is a `TypeError`: of reading `q.id` when `q` is `null`,
or of converting `q.id` to a property key. -/
def isUnanswered (answers : List (String × JVal)) (q : JVal) : Option Bool :=
  match getPropE (some q) "id" with
  | none => none
  | some id =>
    match toStrU id with
    | none => none
    | some key => some (!(readKey answers key).truthy)

/-- The call `questions.filter((q) => !answers[q.id])` on the elements of an array. -/
def unansweredOf (answers : List (String × JVal)) : List JVal → Option (List JVal)
  | [] => some []
  | q :: rest =>
    match isUnanswered answers q with
    | none => none
    | some keep =>
      match unansweredOf answers rest with
      | none => none
      | some us => some (if keep then q :: us else us)

/-- The message of the error thrown for a response that is not `ok`:
`new Error(errData.error || 'Failed to score quiz')` converts its argument to
a string; the message is that of the `TypeError` when `errData` is `null` or
when the conversion throws (the texts of the V8 engine). -/
def scoreFailureMessage (errData : JVal) : String :=
  match getPropE (some errData) "error" with
  | none => "Cannot read properties of null (reading 'error')"
  | some e =>
    if truthy e then
      match toStrU e with
      | some message => message
      | none => conversionErrorMessage
    else "Failed to score quiz"

/-- The `catch` block of `handleSubmitQuiz`: `setError(err.message || 'Failed to
submit quiz')`, followed by the `finally` block. -/
def submitFailed (s : Session) (message : String) : Session :=
  { s with error := some (if message != "" then message else "Failed to submit quiz"),
           loading := false }

/-- The session after `handleSubmitQuiz` has run to completion, with the
bodies of the requests it sent to `/api/score`.  The outer `none` is an
uncaught `TypeError` raised before any state update (the session stays as it
was and nothing is sent). -/
def handleSubmitQuiz (fetchScore : JVal → FetchResult) (s : Session) :
    Option (Session × List JVal) :=
  if !truthy s.questions then some (s, [])
  else
    match s.questions with
    | some (JVal.arr qs) =>
      match unansweredOf s.answers qs with
      | none => none
      | some unanswered =>
        if unanswered.length > 0 then
          some ({ s with error := some ("Please answer all " ++ toString qs.length ++
            " questions") }, [])
        else
          let request := JVal.obj [("questions", JVal.arr qs), ("answers", JVal.obj s.answers)]
          match fetchScore request with
          | FetchResult.response true scoreData =>
            some ({ s with error := none, score := scoreData, currentStep := Step.results,
                           loading := false }, [request])
          | FetchResult.response false errData =>
            some (submitFailed s (scoreFailureMessage errData), [request])
          | FetchResult.failed message => some (submitFailed s message, [request])
    | _ => none

/-- The keys of an object, `Object.keys(o)`, up to their order: the distinct
keys of the property list. -/
def objectKeys (props : List (String × JVal)) : List String :=
  (props.map Prod.fst).dedup

/-- The comparison `Object.keys(answers).length !== questions.length` of the
quiz section, which is rendered only when `questions` is truthy. -/
def keyCountDiffers (s : Session) : Bool :=
  !strictEq (some (JVal.num (objectKeys s.answers).length))
    (match s.questions with
     | some q => getProp q "length"
     | none => none)

/-- The `disabled` attribute of the Submit Quiz button:
`loading || Object.keys(answers).length !== questions.length`. -/
def submitDisabled (s : Session) : Bool :=
  s.loading || keyCountDiffers s

/-- The completeness check of `handleSubmitQuiz` passes: `questions` is an
array, the filter does not throw and `unanswered.length > 0` is false. -/
def submitCheckPasses (s : Session) : Bool :=
  match s.questions with
  | some (JVal.arr qs) =>
    match unansweredOf s.answers qs with
    | some unanswered => !decide (unanswered.length > 0)
    | none => false
  | _ => false

/-- A sequence of calls `handleAnswerChange(questionId, selectedOption)`, the
first call first. -/
def answerChanges : List (Option JVal × JVal) → Session → Session
  | [], s => s
  | (questionId, selectedOption) :: rest, s =>
    answerChanges rest (handleAnswerChange questionId selectedOption s)

/-! ## Vocabulary of the specification -/

/-- A well-formed question, as far as the scorer reads it: an object whose
`id` is a number and whose `question` and `correctAnswer` are strings. -/
def isQuestion : JVal → Bool
  | JVal.obj props =>
    match lookupProp "id" props, lookupProp "question" props,
        lookupProp "correctAnswer" props with
    | some (JVal.num _), some (JVal.str _), some (JVal.str _) => true
    | _, _, _ => false
  | _ => false

/-- The question has a number as `id` that is a safe integer. -/
def hasSafeId : JVal → Bool
  | JVal.obj props =>
    match lookupProp "id" props with
    | some (JVal.num n) => isSafeInteger n
    | _ => false
  | _ => false

/-- A well-formed question whose `id` is a safe integer. -/
def isSafeQuestion (q : JVal) : Bool :=
  isQuestion q && hasSafeId q

/-- The entry of the answer map `A` under the id of the question `q`
(the own property of `A` whose key is `String(q.id)`), `none` when there is no
entry. -/
def storedAnswer (A : List (String × JVal)) (q : JVal) : Option JVal :=
  match toStrU (getProp q "id") with
  | some key => lookupProp key A
  | none => none

/-- The answer map holds a string under the id of `q`, and that string is
character for character the `correctAnswer` of `q`. -/
def answeredCorrectly (A : List (String × JVal)) (q : JVal) : Bool :=
  match storedAnswer A q, getProp q "correctAnswer" with
  | some (JVal.str given), some (JVal.str expected) => decide (given = expected)
  | _, _ => false

/-- The detail record the specification asks for: the question's id, text and
correct answer, the submitted value or `null`, and the verdict. -/
def expectedDetail (A : List (String × JVal)) (q : JVal) : JVal :=
  JVal.obj [("id", (getProp q "id").getD JVal.null),
    ("question", (getProp q "question").getD JVal.null),
    ("correctAnswer", (getProp q "correctAnswer").getD JVal.null),
    ("userAnswer", (storedAnswer A q).getD JVal.null),
    ("isCorrect", JVal.bool (answeredCorrectly A q))]

/-- The first question of the scoring scenario of the specification. -/
def scenarioQuestion1 : JVal :=
  JVal.obj [("id", JVal.num 1), ("question", JVal.str "first"),
    ("options", JVal.arr [JVal.str "A", JVal.str "B", JVal.str "C", JVal.str "D"]),
    ("correctAnswer", JVal.str "B")]

/-- The second question of the scoring scenario of the specification. -/
def scenarioQuestion2 : JVal :=
  JVal.obj [("id", JVal.num 2), ("question", JVal.str "second"),
    ("options", JVal.arr [JVal.str "X", JVal.str "Y", JVal.str "Z", JVal.str "W"]),
    ("correctAnswer", JVal.str "X")]

/-- The two questions of the scoring scenario of the specification. -/
def scenarioQuestions : List JVal :=
  [scenarioQuestion1, scenarioQuestion2]

/-- The answer map of the scoring scenario of the specification. -/
def scenarioAnswers : List (String × JVal) :=
  [("1", JVal.str "B"), ("2", JVal.str "Z")]

/-- The validated question set of the specification for a requested maximum
`n`: an array of between 1 and `n` questions with pairwise distinct ids, each
with exactly four options of which `correctAnswer` is one. -/
def ValidQuestionSet (n : Int) (v : JVal) : Prop :=
  ∃ qs, v = JVal.arr qs ∧ 1 ≤ qs.length ∧ (qs.length : Int) ≤ n ∧
    (qs.map (fun q => getProp q "id")).Nodup ∧
    ∀ q ∈ qs, ∃ opts ans, getProp q "options" = some (JVal.arr opts) ∧ opts.length = 4 ∧
      getProp q "correctAnswer" = some ans ∧ ans ∈ opts

/-- A request body of `/api/generate-quiz` with a transcript and a maximum. -/
def quizRequest (transcript : String) (maxQuestions : JVal) : Option JVal :=
  some (JVal.obj [("transcript", JVal.str transcript), ("maxQuestions", maxQuestions)])

/-- A text-generation service that answers every prompt with the same text. -/
def constService (text : String) : Service :=
  fun _ => Except.ok text

/-- A payload wrapped in a code fence labelled `json`, each marker on a line
of its own. -/
def fenced (payload : String) : String :=
  "\x60\x60\x60json\n" ++ payload ++ "\n\x60\x60\x60"

/-- A response text with two questions that share an id, have three options
each and a `correctAnswer` that is none of them. -/
def malformedQuizText : String :=
  "[\x7b\"id\":1,\"options\":[\"a\",\"b\",\"c\"],\"correctAnswer\":\"z\"\x7d," ++
  "\x7b\"id\":1,\"options\":[\"a\",\"b\",\"c\"],\"correctAnswer\":\"z\"\x7d]"

/-- The question that `malformedQuizText` holds twice. -/
def malformedQuestion : JVal :=
  JVal.obj [("id", JVal.num 1),
    ("options", JVal.arr [JVal.str "a", JVal.str "b", JVal.str "c"]),
    ("correctAnswer", JVal.str "z")]

/-! ## Scoring: auxiliary lemmas -/

set_option maxRecDepth 100000

/-! ## Property keys of numeric ids -/

theorem digitChar_toNat_sub (k : Nat) (hk : k < 10) : (Nat.digitChar k).toNat - 48 = k := by
  interval_cases k <;> rfl

theorem digitChar_isDigit (k : Nat) (hk : k < 10) : (Nat.digitChar k).isDigit = true := by
  interval_cases k <;> rfl

theorem foldl_toDigitsCore :
    ∀ (fuel n : Nat) (ds : List Char), n < fuel →
      List.foldl (fun m c => 10 * m + (c.toNat - 48)) 0 (Nat.toDigitsCore 10 fuel n ds)
        = List.foldl (fun m c => 10 * m + (c.toNat - 48)) n ds
  | 0, n, _, h => absurd h (Nat.not_lt_zero n)
  | fuel + 1, n, ds, h => by
    have hd := digitChar_toNat_sub (n % 10) (Nat.mod_lt n (by decide))
    by_cases hz : n / 10 = 0
    · have hn : n % 10 = n := Nat.mod_eq_of_lt (by omega)
      simp only [Nat.toDigitsCore, hz, ↓reduceIte, List.foldl_cons, hd]
      rw [hn]
      simp
    · have hlt : n / 10 < fuel := by omega
      simp only [Nat.toDigitsCore, hz, ↓reduceIte]
      rw [foldl_toDigitsCore fuel (n / 10) _ hlt, List.foldl_cons, hd]
      have hn : 10 * (n / 10) + n % 10 = n := Nat.div_add_mod n 10
      rw [hn]

theorem digitsToNat_toDigits (n : Nat) : digitsToNat (Nat.toDigits 10 n) = n := by
  simp [digitsToNat, Nat.toDigits, foldl_toDigitsCore (n + 1) n [] (Nat.lt_succ_self n)]

theorem toDigitsCore_isDigit :
    ∀ (fuel n : Nat) (ds : List Char), (∀ c ∈ ds, c.isDigit = true) →
      ∀ c ∈ Nat.toDigitsCore 10 fuel n ds, c.isDigit = true
  | 0, _, _, h => h
  | fuel + 1, n, ds, h => by
    have hd := digitChar_isDigit (n % 10) (Nat.mod_lt n (by decide))
    have hds : ∀ c ∈ Nat.digitChar (n % 10) :: ds, c.isDigit = true := by
      intro c hc
      rcases List.mem_cons.mp hc with rfl | hc
      · exact hd
      · exact h c hc
    by_cases hz : n / 10 = 0
    · simpa only [Nat.toDigitsCore, hz, ↓reduceIte] using hds
    · simp only [Nat.toDigitsCore, hz, ↓reduceIte]
      exact toDigitsCore_isDigit fuel (n / 10) _ hds

theorem toString_nat_data (n : Nat) : (toString n).data = Nat.toDigits 10 n := rfl

theorem toString_nat_injective {a b : Nat} (h : toString a = toString b) : a = b := by
  have hdata : Nat.toDigits 10 a = Nat.toDigits 10 b := by
    rw [← toString_nat_data, ← toString_nat_data, h]
  rw [← digitsToNat_toDigits a, ← digitsToNat_toDigits b, hdata]

/-- Different integers have different decimal representations, hence
different property keys. -/
theorem toString_int_injective {a b : Int} (h : toString a = toString b) : a = b := by
  have hminus : ∀ (m k : Nat), toString m ≠ "-" ++ toString k := by
    intro m k he
    have hd : (toString m).data = '-' :: (toString k).data := by
      rw [he]
      rfl
    rw [toString_nat_data] at hd
    have hmem : '-' ∈ Nat.toDigits 10 m := by
      rw [hd]
      exact List.mem_cons_self _ _
    have := toDigitsCore_isDigit (m + 1) m [] (fun c hc => absurd hc (List.not_mem_nil c)) '-' hmem
    exact absurd this (by decide)
  cases a with
  | ofNat m =>
    cases b with
    | ofNat k =>
      have hk : toString m = toString k := h
      rw [toString_nat_injective hk]
    | negSucc k => exact absurd h (hminus m (k + 1))
  | negSucc m =>
    cases b with
    | ofNat k => exact absurd h.symm (hminus k (m + 1))
    | negSucc k =>
      have hd : ("-" ++ toString (m + 1)).data = ("-" ++ toString (k + 1)).data :=
        congrArg String.data h
      simp only [String.data_append, List.append_cancel_left_eq] at hd
      have hs : toString (m + 1) = toString (k + 1) := String.ext hd
      have := toString_nat_injective hs
      have hmk : m = k := by omega
      rw [hmk]

theorem toString_int_chars (n : Int) :
    ∀ c ∈ (toString n).data, c.isDigit = true ∨ c = '-' := by
  have hnat : ∀ (m : Nat) (c : Char), c ∈ (toString m).data → c.isDigit = true := by
    intro m c hc
    rw [toString_nat_data] at hc
    exact toDigitsCore_isDigit (m + 1) m [] (fun d hd => absurd hd (List.not_mem_nil d)) c hc
  intro c hc
  cases n with
  | ofNat m => exact Or.inl (hnat m c hc)
  | negSucc m =>
    have hd : (toString (Int.negSucc m)).data = '-' :: (toString (m + 1)).data := rfl
    rw [hd] at hc
    rcases List.mem_cons.mp hc with h | h
    · exact Or.inr h
    · exact Or.inl (hnat (m + 1) c h)

theorem toString_int_ne_of_char (n : Int) (name : String) (c : Char) (hc : c ∈ name.data)
    (hdigit : c.isDigit = false) (hminus : c ≠ '-') : toString n ≠ name := by
  intro h
  rcases toString_int_chars n c (by rw [h]; exact hc) with hd | hm
  · rw [hdigit] at hd
    exact absurd hd (by decide)
  · exact hminus hm

/-- The property key of a number is not the name of a member inherited from
`Object.prototype`: a read with that key finds an own property or nothing. -/
theorem readKey_numeric (A : List (String × JVal)) (n : Int) :
    readKey A (toString n) = PropRead.value (lookupProp (toString n) A) := by
  have hproto : toString n ≠ "__proto__" :=
    toString_int_ne_of_char n _ 'p' (by decide) (by decide) (by decide)
  have hmeth : objectPrototypeMethods.contains (toString n) = false := by
    have ho : ∀ name ∈ objectPrototypeMethods, toString n ≠ name := by
      intro name hname
      simp only [objectPrototypeMethods, List.mem_cons, List.mem_singleton,
        List.mem_nil_iff, or_false] at hname
      rcases hname with rfl | rfl | rfl | rfl | rfl | rfl | rfl | rfl | rfl | rfl | rfl
      · exact toString_int_ne_of_char n _ 'c' (by decide) (by decide) (by decide)
      · exact toString_int_ne_of_char n _ 'G' (by decide) (by decide) (by decide)
      · exact toString_int_ne_of_char n _ 'S' (by decide) (by decide) (by decide)
      · exact toString_int_ne_of_char n _ 'h' (by decide) (by decide) (by decide)
      · exact toString_int_ne_of_char n _ 'G' (by decide) (by decide) (by decide)
      · exact toString_int_ne_of_char n _ 'S' (by decide) (by decide) (by decide)
      · exact toString_int_ne_of_char n _ 'i' (by decide) (by decide) (by decide)
      · exact toString_int_ne_of_char n _ 'p' (by decide) (by decide) (by decide)
      · exact toString_int_ne_of_char n _ 't' (by decide) (by decide) (by decide)
      · exact toString_int_ne_of_char n _ 'v' (by decide) (by decide) (by decide)
      · exact toString_int_ne_of_char n _ 't' (by decide) (by decide) (by decide)
    cases hcon : objectPrototypeMethods.contains (toString n) with
    | false => rfl
    | true =>
      have hmem : toString n ∈ objectPrototypeMethods := by
        exact List.elem_iff.mp hcon
      exact absurd rfl (ho _ hmem)
  unfold readKey
  cases lookupProp (toString n) A with
  | none => simp only [hproto, ↓reduceIte, hmeth, Bool.false_eq_true]
  | some v => rfl

theorem toStrU_num (n : Int) : toStrU (some (JVal.num n)) = some (toString n) := by
  simp [toStrU, toStr]

theorem isQuestion_fields {q : JVal} (h : isQuestion q = true) :
    ∃ props n text ans, q = JVal.obj props ∧ lookupProp "id" props = some (JVal.num n) ∧
      lookupProp "question" props = some (JVal.str text) ∧
      lookupProp "correctAnswer" props = some (JVal.str ans) := by
  cases q with
  | obj props =>
    simp only [isQuestion] at h
    split at h
    · next n text ans h1 h2 h3 => exact ⟨props, _, _, _, rfl, h1, h2, h3⟩
    · exact absurd h (by simp)
  | _ => simp [isQuestion] at h

theorem scoreDetail_question (A : List (String × JVal)) {q : JVal}
    (h : isQuestion q = true) :
    scoreDetail (JVal.obj A) q = some (expectedDetail A q, answeredCorrectly A q) := by
  obtain ⟨props, n, text, ans, rfl, h1, h2, h3⟩ := isQuestion_fields h
  cases hA : lookupProp (toString n) A with
  | none =>
    simp [scoreDetail, getPropE, getProp, h1, h2, h3, toStrU, toStr, mkObj, expectedDetail,
      answeredCorrectly, storedAnswer, hA, strictEq, orNull, readComputed, readKey_numeric,
      PropRead.strictEq, PropRead.orNullJson]
  | some v =>
    cases v <;>
    simp [scoreDetail, getPropE, getProp, h1, h2, h3, toStrU, toStr, mkObj, expectedDetail,
      answeredCorrectly, storedAnswer, hA, strictEq, orNull, Bool.beq_eq_decide_eq,
      readComputed, readKey_numeric, PropRead.strictEq, PropRead.orNullJson]

theorem scoreLoop_questions (A : List (String × JVal)) (qs : List JVal)
    (h : ∀ q ∈ qs, isQuestion q = true) (c : Nat) :
    scoreLoop (JVal.obj A) qs c
      = some (qs.map (expectedDetail A), c + qs.countP (answeredCorrectly A)) := by
  induction qs generalizing c with
  | nil => simp [scoreLoop]
  | cons q rest ih =>
    have hq := h q (List.mem_cons_self q rest)
    have hrest : ∀ x ∈ rest, isQuestion x = true :=
      fun x hx => h x (List.mem_cons_of_mem q hx)
    rw [scoreLoop, scoreDetail_question A hq]
    simp only [ih hrest]
    cases hc : answeredCorrectly A q
    · simp [List.countP_cons, hc]
    · simp [List.countP_cons, hc]
      omega

theorem score_questions (A : List (String × JVal)) (qs : List JVal)
    (h : ∀ q ∈ qs, isQuestion q = true) :
    score (some (JVal.arr qs)) (some (JVal.obj A))
      = Response.json 200 (JVal.obj [("total", JVal.num qs.length),
          ("correct", JVal.num (qs.countP (answeredCorrectly A))),
          ("details", JVal.arr (qs.map (expectedDetail A)))]) := by
  simp [score, isArray, truthy, scoreLoop_questions A qs h]

theorem answeredCorrectly_iff (A : List (String × JVal)) {q : JVal}
    (h : isQuestion q = true) :
    answeredCorrectly A q = true ↔ storedAnswer A q = getProp q "correctAnswer" := by
  obtain ⟨props, n, text, ans, rfl, h1, h2, h3⟩ := isQuestion_fields h
  simp only [answeredCorrectly, getProp, h3]
  cases hA : storedAnswer A (JVal.obj props) with
  | none => simp
  | some v => cases v <;> simp

theorem answeredCorrectly_isSome (A : List (String × JVal)) (q : JVal)
    (h : answeredCorrectly A q = true) : (storedAnswer A q).isSome = true := by
  unfold answeredCorrectly at h
  cases hA : storedAnswer A q with
  | none => simp [hA] at h
  | some v => rfl

theorem isSafeQuestion_isQuestion {q : JVal} (h : isSafeQuestion q = true) :
    isQuestion q = true := by
  simp only [isSafeQuestion, Bool.and_eq_true] at h
  exact h.1

theorem hasSafeId_fields {q : JVal} (h : hasSafeId q = true) :
    ∃ props n, q = JVal.obj props ∧ lookupProp "id" props = some (JVal.num n) ∧
      isSafeInteger n = true := by
  cases q with
  | obj props =>
    simp only [hasSafeId] at h
    split at h
    · next n h1 => exact ⟨props, n, rfl, h1, h⟩
    · exact absurd h (by simp)
  | _ => simp [hasSafeId] at h

/-! ## Scoring: the report -/

/-- C1: for every list of well-formed questions whose ids are safe integers
and every answer map, the report of `score` has `total` equal to the number
of questions and `correct` equal to the number of questions whose entry in
the answer map is exactly the question's `correctAnswer` (the same string,
untrimmed and case-sensitive). -/
theorem score_total_and_correct (qs : List JVal) (A : List (String × JVal))
    (h : ∀ q ∈ qs, isSafeQuestion q = true) :
    (∃ details, score (some (JVal.arr qs)) (some (JVal.obj A))
      = Response.json 200 (JVal.obj [("total", JVal.num qs.length),
          ("correct", JVal.num (qs.countP (answeredCorrectly A))),
          ("details", JVal.arr details)])) ∧
    (∀ q ∈ qs, (answeredCorrectly A q = true ↔
      storedAnswer A q = getProp q "correctAnswer")) :=
  ⟨⟨_, score_questions A qs (fun q hq => isSafeQuestion_isQuestion (h q hq))⟩,
    fun q hq => answeredCorrectly_iff A (isSafeQuestion_isQuestion (h q hq))⟩

/-- Witness of C1: the two scenario questions, the first answered with its
correct answer `"B"`, the second with `"x"` (the correct answer in the wrong
case), give total 2 and correct 1. -/
theorem score_total_and_correct_witness :
    ∃ details, score (some (JVal.arr scenarioQuestions))
        (some (JVal.obj [("1", JVal.str "B"), ("2", JVal.str "x")]))
      = Response.json 200 (JVal.obj [("total", JVal.num 2), ("correct", JVal.num 1),
          ("details", JVal.arr details)]) :=
  (score_total_and_correct scenarioQuestions [("1", JVal.str "B"), ("2", JVal.str "x")]
    (by decide)).1

/-- C2: for every list of well-formed questions whose ids are safe integers
and every answer map,
`details` has one record per question, in the order of the questions; the
record of a question carries its `id`, `question` and `correctAnswer`, as
`userAnswer` the value stored under its id or `null` when there is none, and
`isCorrect` is true exactly when the stored value equals `correctAnswer`. -/
theorem score_details (qs : List JVal) (A : List (String × JVal))
    (h : ∀ q ∈ qs, isSafeQuestion q = true) :
    score (some (JVal.arr qs)) (some (JVal.obj A))
      = Response.json 200 (JVal.obj [("total", JVal.num qs.length),
          ("correct", JVal.num (qs.countP (answeredCorrectly A))),
          ("details", JVal.arr (qs.map (expectedDetail A)))]) ∧
    (∀ q ∈ qs, ∃ id text ans, getProp q "id" = some id ∧ getProp q "question" = some text ∧
      getProp q "correctAnswer" = some ans ∧
      expectedDetail A q = JVal.obj [("id", id), ("question", text), ("correctAnswer", ans),
        ("userAnswer", (storedAnswer A q).getD JVal.null),
        ("isCorrect", JVal.bool (answeredCorrectly A q))] ∧
      (answeredCorrectly A q = true ↔ storedAnswer A q = some ans)) := by
  have hwf : ∀ q ∈ qs, isQuestion q = true := fun q hq => isSafeQuestion_isQuestion (h q hq)
  refine ⟨score_questions A qs hwf, fun q hq => ?_⟩
  have hiff := answeredCorrectly_iff A (hwf q hq)
  obtain ⟨props, n, text, ans, rfl, h1, h2, h3⟩ := isQuestion_fields (hwf q hq)
  refine ⟨_, _, _, h1, h2, h3, ?_, ?_⟩
  · simp [expectedDetail, getProp, h1, h2, h3]
  · rw [hiff]
    simp [getProp, h3]

/-- Witness of C2: the scoring scenario of the specification, questions 1 and
2 with correct answers `"B"` and `"X"`, answered `"B"` and `"Z"`. -/
theorem score_details_witness :
    score (some (JVal.arr scenarioQuestions)) (some (JVal.obj scenarioAnswers))
      = Response.json 200 (JVal.obj [("total", JVal.num 2), ("correct", JVal.num 1),
          ("details", JVal.arr [
            JVal.obj [("id", JVal.num 1), ("question", JVal.str "first"),
              ("correctAnswer", JVal.str "B"), ("userAnswer", JVal.str "B"),
              ("isCorrect", JVal.bool true)],
            JVal.obj [("id", JVal.num 2), ("question", JVal.str "second"),
              ("correctAnswer", JVal.str "X"), ("userAnswer", JVal.str "Z"),
              ("isCorrect", JVal.bool false)]])]) := by
  exact (score_details scenarioQuestions scenarioAnswers (by decide)).1

/-- C6: `score` answers with the validation error (status 400) only if
`questions` is not an array or `answers` is not an object; for every array of
well-formed questions and every answer object, the empty one included, it
answers with a score report (status 200). -/
theorem score_validation_only_for_bad_arguments :
    (∀ (questions answers : Option JVal) (body : JVal),
      score questions answers = Response.json 400 body →
        (∀ qs, questions ≠ some (JVal.arr qs)) ∨ (∀ A, answers ≠ some (JVal.obj A))) ∧
    (∀ (qs : List JVal) (A : List (String × JVal)), (∀ q ∈ qs, isQuestion q = true) →
      ∃ report, score (some (JVal.arr qs)) (some (JVal.obj A)) = Response.json 200 report) := by
  constructor
  · intro questions answers body hfail
    by_contra hcon
    simp only [not_or, not_forall, not_not] at hcon
    obtain ⟨⟨qs, rfl⟩, ⟨A, rfl⟩⟩ := hcon
    simp only [score, isArray, truthy] at hfail
    cases hloop : scoreLoop (JVal.obj A) qs 0 with
    | none => simp [hloop] at hfail
    | some r => simp [hloop] at hfail
  · intro qs A h
    exact ⟨_, score_questions A qs h⟩

/-- Witness of C6: a request without `answers` fails validation and is indeed
malformed; the scenario questions with the empty answer object are scored. -/
theorem score_validation_only_for_bad_arguments_witness :
    ((∀ qs, some (JVal.arr scenarioQuestions) ≠ some (JVal.arr qs)) ∨
      (∀ A, (none : Option JVal) ≠ some (JVal.obj A))) ∧
    (∃ report, score (some (JVal.arr scenarioQuestions)) (some (JVal.obj []))
      = Response.json 200 report) :=
  ⟨score_validation_only_for_bad_arguments.1 (some (JVal.arr scenarioQuestions)) none
      scoreArgError rfl,
   score_validation_only_for_bad_arguments.2 scenarioQuestions [] (by decide)⟩

/-- C10: for every list of well-formed questions whose ids are safe integers
and every answer map, a
question whose id has no entry in the map is reported with `userAnswer` `null`
and `isCorrect` `false`, and `correct` counts only questions that have an
entry; with the empty answer map `correct` is 0. -/
theorem score_unanswered (qs : List JVal) (A : List (String × JVal))
    (h : ∀ q ∈ qs, isSafeQuestion q = true) :
    ∃ (details : List JVal) (correct : Nat),
      score (some (JVal.arr qs)) (some (JVal.obj A))
        = Response.json 200 (JVal.obj [("total", JVal.num qs.length),
            ("correct", JVal.num correct), ("details", JVal.arr details)]) ∧
      (∀ (i : Nat) (q : JVal), qs.get? i = some q → storedAnswer A q = none →
        ∃ d, details.get? i = some d ∧ getProp d "userAnswer" = some JVal.null ∧
          getProp d "isCorrect" = some (JVal.bool false)) ∧
      correct = (qs.filter (fun q => (storedAnswer A q).isSome)).countP
        (answeredCorrectly A) ∧
      (A = [] → correct = 0) := by
  refine ⟨_, _, score_questions A qs
    (fun q hq => isSafeQuestion_isQuestion (h q hq)), ?_, ?_, ?_⟩
  · intro i q hi hA
    refine ⟨expectedDetail A q, ?_, ?_, ?_⟩
    · simp [List.get?_eq_getElem?, List.getElem?_map] at hi ⊢
      exact ⟨q, hi, rfl⟩
    · simp [expectedDetail, getProp, lookupProp, hA]
    · simp [expectedDetail, getProp, lookupProp, answeredCorrectly, hA]
  · rw [List.countP_filter]
    apply List.countP_congr
    intro q _
    constructor
    · intro hq
      simp [hq, answeredCorrectly_isSome A q hq]
    · intro hq
      simp only [Bool.and_eq_true] at hq
      exact hq.1
  · intro hA
    subst hA
    rw [List.countP_eq_zero]
    intro q _
    cases hk : toStrU (getProp q "id") <;> simp [answeredCorrectly, storedAnswer, lookupProp, hk]

/-- Witness of C10: the scenario questions with only question 1 answered;
question 2 is reported unanswered and incorrect. -/
theorem score_unanswered_witness :
    ∃ (details : List JVal) (correct : Nat),
      score (some (JVal.arr scenarioQuestions)) (some (JVal.obj [("1", JVal.str "B")]))
        = Response.json 200 (JVal.obj [("total", JVal.num 2),
            ("correct", JVal.num correct), ("details", JVal.arr details)]) ∧
      (∃ d, details.get? 1 = some d ∧ getProp d "userAnswer" = some JVal.null ∧
          getProp d "isCorrect" = some (JVal.bool false)) ∧
      correct = 1 := by
  obtain ⟨details, correct, hs, hd, hc, _⟩ :=
    score_unanswered scenarioQuestions [("1", JVal.str "B")] (by decide)
  refine ⟨details, correct, hs, ?_, ?_⟩
  · exact hd 1 _ rfl rfl
  · rw [hc]
    decide

/-! ## Generation: the cleaning step -/

theorem isPrefixOf_append_sep (x : Char) (r : List Char) :
    ∀ (pat s : List Char), x ∉ pat → pat.isPrefixOf (s ++ x :: r) = pat.isPrefixOf s
  | [], s, _ => by simp
  | p :: ps, [], hx => by
    have hpx : ¬ p = x := fun e => hx (by simp [e])
    simp [List.isPrefixOf, hpx]
  | p :: ps, c :: cs, hx => by
    have hps : x ∉ ps := fun hmem => hx (List.mem_cons_of_mem p hmem)
    show (p == c && ps.isPrefixOf (cs ++ x :: r)) = (p == c && ps.isPrefixOf cs)
    rw [isPrefixOf_append_sep x r ps cs hps]

theorem isPrefixOf_length_le {pat s : List Char} (h : pat.isPrefixOf s = true) :
    pat.length ≤ s.length :=
  (List.isPrefixOf_iff_prefix.mp h).length_le

theorem removeAllAux_zero_cons (pat : List Char) (c : Char) (cs : List Char) :
    removeAllAux pat 0 (c :: cs)
      = if pat.isPrefixOf (c :: cs) = true then removeAllAux pat (pat.length - 1) cs
        else c :: removeAllAux pat 0 cs := by
  rw [removeAllAux]

/-- A separator that does not occur in the pattern splits the replacement:
matches never extend over it. -/
theorem removeAllAux_append_sep (pat : List Char) (hpat : pat ≠ []) (x : Char)
    (hx : x ∉ pat) (r : List Char) :
    ∀ (s : List Char) (k : Nat), k ≤ s.length →
      removeAllAux pat k (s ++ x :: r) = removeAllAux pat k s ++ x :: removeAllAux pat 0 r
  | [], k, hk => by
    have hk0 : k = 0 := by simpa using hk
    subst hk0
    have hpre : pat.isPrefixOf (x :: r) = false := by
      cases pat with
      | nil => exact absurd rfl hpat
      | cons p ps =>
        have hpx : ¬ p = x := fun e => hx (by simp [e])
        simp [List.isPrefixOf, hpx]
    simp [removeAllAux, hpre]
  | c :: cs, k + 1, hk => by
    have hk1 : k ≤ cs.length := by simpa using hk
    simp only [List.cons_append, removeAllAux]
    exact removeAllAux_append_sep pat hpat x hx r cs k hk1
  | c :: cs, 0, _ => by
    have hpre := isPrefixOf_append_sep x r pat (c :: cs) hx
    simp only [List.cons_append] at hpre
    rw [List.cons_append, removeAllAux_zero_cons, removeAllAux_zero_cons pat c cs, hpre]
    cases hm : pat.isPrefixOf (c :: cs) with
    | true =>
      have hlen := isPrefixOf_length_le hm
      have hk1 : pat.length - 1 ≤ cs.length := by
        simp only [List.length_cons] at hlen
        omega
      simp only [↓reduceIte]
      exact removeAllAux_append_sep pat hpat x hx r cs (pat.length - 1) hk1
    | false =>
      simp only [Bool.false_eq_true, ↓reduceIte, List.cons_append]
      rw [removeAllAux_append_sep pat hpat x hx r cs 0 (Nat.zero_le _)]

/-- A text in which the pattern does not occur is left as it is. -/
theorem removeAll_of_not_infix (pat : List Char) (hpat : pat ≠ []) :
    ∀ s : List Char, ¬ pat <:+: s → removeAll pat s = s
  | [], _ => rfl
  | c :: cs, h => by
    have hpre : pat.isPrefixOf (c :: cs) = false := by
      cases hm : pat.isPrefixOf (c :: cs) with
      | true => exact absurd (List.isPrefixOf_iff_prefix.mp hm).isInfix h
      | false => rfl
    have htail : ¬ pat <:+: cs := fun hin => h (hin.trans (List.suffix_cons c cs).isInfix)
    have ih := removeAll_of_not_infix pat hpat cs htail
    simp only [removeAll] at ih ⊢
    rw [removeAllAux_zero_cons, hpre, ih]
    simp

theorem jsTrim_wrapped (w v : Char) (hw : isJsSpace w = true) (hv : isJsSpace v = true)
    (s : List Char) : jsTrim (w :: (s ++ [v])) = jsTrim s := by
  have key : ∀ t : List Char, ((t ++ [v]).dropWhile isJsSpace).rdropWhile isJsSpace
      = (t.dropWhile isJsSpace).rdropWhile isJsSpace := by
    intro t
    induction t with
    | nil => simp [List.dropWhile, hv]
    | cons c cs ih =>
      cases hc : isJsSpace c with
      | true => simpa [List.dropWhile, hc] using ih
      | false =>
        simp only [List.cons_append, List.dropWhile, hc]
        show List.rdropWhile isJsSpace ((c :: cs) ++ [v]) = _
        rw [List.rdropWhile_concat_pos _ _ _ hv]
  simp only [jsTrim, List.dropWhile, hw]
  exact key s

/-- The cleaning step on a fenced payload gives what it gives on the payload
alone. -/
theorem cleanText_fenced_eq (s : String) : cleanText (fenced s) = cleanText s := by
  have hdata : (fenced s).data
      = '\x60' :: '\x60' :: '\x60' :: 'j' :: 's' :: 'o' :: 'n' :: '\n' ::
          (s.data ++ '\n' :: fence) := by
    simp [fenced, fence, String.data_append]
  have h1 : removeAll fenceJson (fenced s).data
      = '\n' :: (removeAll fenceJson s.data ++ '\n' :: fence) := by
    rw [hdata]
    have hstep := removeAllAux_append_sep fenceJson (by decide) '\n' (by decide) fence
      s.data 0 (Nat.zero_le _)
    have hf : removeAllAux fenceJson 0 fence = fence := by decide
    rw [hf] at hstep
    simp only [removeAll]
    rw [← hstep]
    simp [removeAllAux, fenceJson, List.isPrefixOf]
  have h2 : removeAll fence ('\n' :: (removeAll fenceJson s.data ++ '\n' :: fence))
      = '\n' :: (removeAll fence (removeAll fenceJson s.data) ++ ['\n']) := by
    have hstep := removeAllAux_append_sep fence (by decide) '\n' (by decide) fence
      (removeAll fenceJson s.data) 0 (Nat.zero_le _)
    have hf : removeAllAux fence 0 fence = [] := by decide
    rw [hf] at hstep
    simp only [removeAll] at hstep ⊢
    rw [← hstep]
    simp [removeAllAux, fence, List.isPrefixOf]
  simp only [cleanText, h1, h2]
  rw [jsTrim_wrapped '\n' '\n' (by decide) (by decide)]

/-- C5 (amended): for every payload `s`, the cleaning step gives the same text
for the fenced `s` as for `s` alone, so both are parsed alike and the handler
answers alike; when `s` contains no run of three backticks that text is
exactly `s` without its leading and trailing white space. -/
theorem cleanText_fenced (s : String) :
    (∀ parse : String → Option JVal, parse (cleanText (fenced s)) = parse (cleanText s)) ∧
    (∀ (parse : String → Option JVal) (body : Option JVal),
      generateQuiz parse (some (constService (fenced s))) body
        = generateQuiz parse (some (constService s)) body) ∧
    (¬ fence <:+: s.data → cleanText (fenced s) = String.mk (jsTrim s.data)) := by
  refine ⟨fun parse => by rw [cleanText_fenced_eq], fun parse body => ?_, fun h => ?_⟩
  · simp only [generateQuiz, constService, cleanText_fenced_eq]
  · have hj : ¬ fenceJson <:+: s.data := fun hin =>
      h ((List.IsPrefix.isInfix (by decide : fence <+: fenceJson)).trans hin)
    rw [cleanText_fenced_eq, cleanText,
      removeAll_of_not_infix fenceJson (by decide) s.data hj,
      removeAll_of_not_infix fence (by decide) s.data h]

/-- Witness of C5: a fenced array with blanks around it is cleaned to the
array alone. -/
theorem cleanText_fenced_witness :
    ¬ fence <:+: " [1, 2] ".data ∧ cleanText (fenced " [1, 2] ") = "[1, 2]" :=
  ⟨by decide, ((cleanText_fenced " [1, 2] ").2.2 (by decide)).trans (by decide)⟩

/-- Counterexample to C5 as stated: a payload that holds three backticks
inside a string loses them, so the cleaned text is not the trimmed payload
and it parses to a different value than the payload does. -/
theorem cleanText_fenced_counterexample :
    cleanText (fenced "[\"\x60\x60\x60\"]") = "[\"\"]" ∧
    String.mk (jsTrim "[\"\x60\x60\x60\"]".data) = "[\"\x60\x60\x60\"]" ∧
    cleanText (fenced "[\"\x60\x60\x60\"]") ≠ String.mk (jsTrim "[\"\x60\x60\x60\"]".data) ∧
    jsonParse (cleanText (fenced "[\"\x60\x60\x60\"]")) = some (JVal.arr [JVal.str ""]) ∧
    jsonParse "[\"\x60\x60\x60\"]" = some (JVal.arr [JVal.str "\x60\x60\x60"]) :=
  ⟨by decide, by decide, by decide, by rfl, by rfl⟩

/-! ## Generation: the handler -/

/-- C3 (amended): when the handler succeeds, it has sent one prompt, and the
question set it returns is the value parsed from the cleaned response text,
unchanged; conversely every value the cleaned text parses to is returned for a
non-empty transcript and a `maxQuestions` that is a safe integer.  Nothing
bounds the number of questions or checks ids, options or `correctAnswer`. -/
theorem generate_returns_parsed_text (parse : String → Option JVal) :
    (∀ (service : Service) (body : Option JVal) (v : JVal) (prompts : List String),
      generateQuiz parse (some service) body = ⟨Response.json 200 v, prompts⟩ →
        ∃ prompt text questions, prompts = [prompt] ∧ service prompt = Except.ok text ∧
          parse (cleanText text) = some questions ∧
          v = JVal.obj [("questions", questions)]) ∧
    (∀ (text t : String) (n : Int) (questions : JVal), t ≠ "" → isSafeInteger n = true →
      parse (cleanText text) = some questions →
        generateQuiz parse (some (constService text)) (quizRequest t (JVal.num n))
          = ⟨Response.json 200 (JVal.obj [("questions", questions)]),
              [quizPrompt t (toString n)]⟩) := by
  constructor
  · intro service body v prompts h
    simp only [generateQuiz] at h
    split at h
    · simp at h
    · split at h
      · split at h
        · next message hsvc => simp at h
        · next text hsvc =>
          split at h
          · simp [invalidJson] at h
          · next questions hparse =>
            simp only [Outcome.mk.injEq, Response.json.injEq, true_and] at h
            exact ⟨_, text, questions, h.2.symm, hsvc, hparse, h.1.symm⟩
      · simp at h
  · intro text t n questions ht _ hparse
    simp [generateQuiz, quizRequest, bodyOrEmpty, truthy, orNull, getProp, lookupProp, ht,
      constService, hparse, toStrU, toStr]

/-- Witness of C3: the response text `[]` parses to the empty array, which is
returned as the question set. -/
theorem generate_returns_parsed_text_witness :
    generateQuiz jsonParse (some (constService "[]")) (quizRequest "t" (JVal.num 1))
      = ⟨Response.json 200 (JVal.obj [("questions", JVal.arr [])]), [quizPrompt "t" "1"]⟩ :=
  (generate_returns_parsed_text jsonParse).2 "[]" "t" 1 (JVal.arr [])
    (by decide) (by decide) (by rfl)

/-- Counterexample to C3 as stated: for the non-empty transcript `"t"` and
`n = 1` the handler succeeds with an empty question set, and with a set of
two questions that share an id, have three options and a `correctAnswer` that
is none of them. -/
theorem generate_unvalidated_counterexample :
    generateQuiz jsonParse (some (constService "[]")) (quizRequest "t" (JVal.num 1))
      = ⟨Response.json 200 (JVal.obj [("questions", JVal.arr [])]), [quizPrompt "t" "1"]⟩ ∧
    ¬ ValidQuestionSet 1 (JVal.arr []) ∧
    generateQuiz jsonParse (some (constService malformedQuizText))
        (quizRequest "t" (JVal.num 1))
      = ⟨Response.json 200 (JVal.obj [("questions",
          JVal.arr [malformedQuestion, malformedQuestion])]), [quizPrompt "t" "1"]⟩ ∧
    ¬ (([malformedQuestion, malformedQuestion].length : Int) ≤ 1) ∧
    ¬ ([malformedQuestion, malformedQuestion].map (fun q => getProp q "id")).Nodup ∧
    (∀ q ∈ [malformedQuestion, malformedQuestion],
      ¬ ∃ opts ans, getProp q "options" = some (JVal.arr opts) ∧ opts.length = 4 ∧
        getProp q "correctAnswer" = some ans ∧ ans ∈ opts) ∧
    ¬ ValidQuestionSet 1 (JVal.arr [malformedQuestion, malformedQuestion]) := by
  refine ⟨by rfl, ?_, by rfl, by decide, by simp, ?_, ?_⟩
  · rintro ⟨qs, hqs, hlen, -⟩
    cases hqs
    simp at hlen
  · intro q hq
    have hq1 : q = malformedQuestion := by simpa using hq
    subst hq1
    rintro ⟨opts, ans, hopts, hlen, -⟩
    simp [malformedQuestion, getProp, lookupProp] at hopts
    subst hopts
    simp at hlen
  · rintro ⟨qs, hqs, -, hlen, -⟩
    cases hqs
    simp at hlen

theorem generateQuiz_of_falsy_transcript (parse : String → Option JVal)
    (genAI : Option Service) (body : Option JVal)
    (h : truthy (getProp (bodyOrEmpty body) "transcript") = false) :
    generateQuiz parse genAI body = ⟨Response.json 400 missingTranscript, []⟩ := by
  simp [generateQuiz, h]

theorem generateQuiz_without_credential (parse : String → Option JVal) (body : Option JVal)
    (h : truthy (getProp (bodyOrEmpty body) "transcript") = true) :
    generateQuiz parse none body = ⟨Response.json 500 missingCredential, []⟩ := by
  simp [generateQuiz, h]

/-- C4 (amended): for every credential state and every request whose
transcript is missing or empty, whatever its `maxQuestions`, the handler
fails with the validation error and sends no prompt; a transcript that is
not empty, white space included, passes this check and, with a credential
and a `maxQuestions` that is a safe integer, is sent to the text-generation
service in one prompt. -/
theorem generate_transcript_check (parse : String → Option JVal) :
    (∀ (genAI : Option Service) (body : Option JVal),
      truthy (getProp (bodyOrEmpty body) "transcript") = false →
        generateQuiz parse genAI body = ⟨Response.json 400 missingTranscript, []⟩) ∧
    (∀ (genAI : Option Service) (n : JVal),
      generateQuiz parse genAI (quizRequest "" n)
        = ⟨Response.json 400 missingTranscript, []⟩) ∧
    (∀ (service : Service) (t : String) (n : Int), t ≠ "" → isSafeInteger n = true →
      (generateQuiz parse (some service) (quizRequest t (JVal.num n))).prompts
        = [quizPrompt t (toString n)]) := by
  refine ⟨fun genAI body h => generateQuiz_of_falsy_transcript parse genAI body h,
    fun genAI n => generateQuiz_of_falsy_transcript parse genAI _ (by rfl), ?_⟩
  intro service t n ht _
  simp [generateQuiz, quizRequest, bodyOrEmpty, truthy, orNull, getProp, lookupProp, ht,
    toStrU, toStr]
  split
  · rfl
  · split <;> rfl

/-- Witness of C4: a request without a body fails the transcript check, and
the transcript `"   "` is sent to the service. -/
theorem generate_transcript_check_witness :
    generateQuiz jsonParse (some (constService "[]")) none
      = ⟨Response.json 400 missingTranscript, []⟩ ∧
    (generateQuiz jsonParse (some (constService "[]")) (quizRequest "   " (JVal.num 5))).prompts
      = [quizPrompt "   " "5"] :=
  ⟨(generate_transcript_check jsonParse).1 (some (constService "[]")) none (by rfl),
   (generate_transcript_check jsonParse).2.2 (constService "[]") "   " 5
     (by decide) (by decide)⟩

/-- Counterexample to C4 as stated: with the transcript `"   "` the handler
does not fail; it sends the prompt and answers with the parsed question set. -/
theorem generate_whitespace_transcript_counterexample :
    generateQuiz jsonParse (some (constService "[]")) (quizRequest "   " (JVal.num 5))
      = ⟨Response.json 200 (JVal.obj [("questions", JVal.arr [])]),
          [quizPrompt "   " "5"]⟩ ∧
    (generateQuiz jsonParse (some (constService "[]"))
      (quizRequest "   " (JVal.num 5))).prompts ≠ [] :=
  ⟨by rfl, by
    have h : (generateQuiz jsonParse (some (constService "[]"))
        (quizRequest "   " (JVal.num 5))).prompts = [quizPrompt "   " "5"] := by rfl
    rw [h]
    exact List.cons_ne_nil _ _⟩

/-- C7 (amended): without the credential no call sends a prompt; a call whose
transcript is not empty fails with the configuration error, and a call whose
transcript is missing or empty fails with the validation error of the
transcript check, which comes first. -/
theorem generate_without_credential (parse : String → Option JVal) (body : Option JVal) :
    (generateQuiz parse none body).prompts = [] ∧
    (truthy (getProp (bodyOrEmpty body) "transcript") = true →
      generateQuiz parse none body = ⟨Response.json 500 missingCredential, []⟩) ∧
    (truthy (getProp (bodyOrEmpty body) "transcript") = false →
      generateQuiz parse none body = ⟨Response.json 400 missingTranscript, []⟩) := by
  refine ⟨?_, generateQuiz_without_credential parse body,
    generateQuiz_of_falsy_transcript parse none body⟩
  cases h : truthy (getProp (bodyOrEmpty body) "transcript") with
  | true => rw [generateQuiz_without_credential parse body h]
  | false => rw [generateQuiz_of_falsy_transcript parse none body h]

/-- Witness of C7: without the credential, a request with a transcript gets
the configuration error. -/
theorem generate_without_credential_witness :
    generateQuiz jsonParse none (quizRequest "some transcript" (JVal.num 5))
      = ⟨Response.json 500 missingCredential, []⟩ :=
  (generate_without_credential jsonParse (quizRequest "some transcript" (JVal.num 5))).2.1
    (by decide)

/-- Counterexample to C7 as stated: without the credential, a request with an
empty transcript, and a request without a body, get the validation error of
the transcript check (status 400), not the configuration error. -/
theorem generate_without_credential_counterexample :
    generateQuiz jsonParse none (quizRequest "" (JVal.num 5))
      = ⟨Response.json 400 missingTranscript, []⟩ ∧
    generateQuiz jsonParse none none = ⟨Response.json 400 missingTranscript, []⟩ ∧
    (400 : Nat) ≠ 500 :=
  ⟨by rfl, by rfl, by decide⟩

/-! ## The quiz session -/

theorem isUnanswered_numeric (answers : List (String × JVal)) {q : JVal}
    (h : ∃ props n, q = JVal.obj props ∧ lookupProp "id" props = some (JVal.num n)) :
    isUnanswered answers q = some (!truthy (storedAnswer answers q)) := by
  obtain ⟨props, n, rfl, hid⟩ := h
  simp [isUnanswered, storedAnswer, getPropE, getProp, hid, toStrU_num, readKey_numeric,
    PropRead.truthy]

/-- For questions with numeric ids the filter of `handleSubmitQuiz` does not
throw and keeps the questions whose entry in the answer map is falsy. -/
theorem unansweredOf_eq_filter (answers : List (String × JVal)) :
    ∀ qs : List JVal,
      (∀ q ∈ qs, ∃ props n, q = JVal.obj props ∧ lookupProp "id" props = some (JVal.num n)) →
      unansweredOf answers qs
        = some (qs.filter (fun q => !truthy (storedAnswer answers q)))
  | [], _ => rfl
  | q :: rest, h => by
    have ih := unansweredOf_eq_filter answers rest
      (fun x hx => h x (List.mem_cons_of_mem q hx))
    have hun := isUnanswered_numeric answers (h q (List.mem_cons_self q rest))
    rw [unansweredOf, hun]
    simp only [ih, List.filter_cons]

/-- C8: in every session in the quiz step whose questions have safe integers
as ids and whose question set has a question
without an entry, or with an empty entry, in the answer map, `handleSubmitQuiz`
only sets the error message, which names the number of questions: the step
stays `quiz`, the answers, the questions and the score stay as they were, and
no request is sent to the score service. -/
theorem submit_rejected_when_unanswered (fetchScore : JVal → FetchResult) (s : Session)
    (qs : List JVal) (hstep : s.currentStep = Step.quiz)
    (hqs : s.questions = some (JVal.arr qs)) (hids : ∀ q ∈ qs, hasSafeId q = true)
    (hmiss : ∃ q ∈ qs, storedAnswer s.answers q = none ∨
      storedAnswer s.answers q = some (JVal.str "")) :
    ∃ s', handleSubmitQuiz fetchScore s = some (s', []) ∧
      s'.error = some ("Please answer all " ++ toString qs.length ++ " questions") ∧
      s'.currentStep = Step.quiz ∧ s'.answers = s.answers ∧ s'.questions = s.questions ∧
      s'.score = s.score ∧ s'.loading = s.loading := by
  have hobj : ∀ q ∈ qs, ∃ props n, q = JVal.obj props ∧
      lookupProp "id" props = some (JVal.num n) := by
    intro q hq
    obtain ⟨props, n, h1, h2, -⟩ := hasSafeId_fields (hids q hq)
    exact ⟨props, n, h1, h2⟩
  obtain ⟨q, hq, hfalsy⟩ := hmiss
  have hq' : truthy (storedAnswer s.answers q) = false := by
    rcases hfalsy with h | h <;> simp [h, truthy]
  have hmem : q ∈ qs.filter (fun q => !truthy (storedAnswer s.answers q)) := by
    simp [List.mem_filter, hq, hq']
  have hpos : (qs.filter (fun q => !truthy (storedAnswer s.answers q))).length > 0 :=
    List.length_pos_of_mem hmem
  refine ⟨{ s with error := some ("Please answer all " ++ toString qs.length ++
    " questions") }, ?_, rfl, hstep, rfl, rfl, rfl, rfl⟩
  have htq : truthy (some (JVal.arr qs)) = true := rfl
  unfold handleSubmitQuiz
  simp only [hqs, htq, unansweredOf_eq_filter s.answers qs hobj, Bool.not_true,
    Bool.false_eq_true, ↓reduceIte, if_pos hpos]

/-- Witness of C8: the scenario questions in the quiz step with only question
1 answered. -/
theorem submit_rejected_when_unanswered_witness :
    ∃ s', handleSubmitQuiz (fun _ => FetchResult.failed "offline")
        ⟨"u", false, none, some (JVal.arr scenarioQuestions), [("1", JVal.str "B")],
          JVal.null, Step.quiz⟩ = some (s', []) ∧
      s'.error = some "Please answer all 2 questions" ∧ s'.currentStep = Step.quiz ∧
      s'.answers = [("1", JVal.str "B")] := by
  obtain ⟨s', h, he, hs, ha, _⟩ := submit_rejected_when_unanswered
    (fun _ => FetchResult.failed "offline")
    ⟨"u", false, none, some (JVal.arr scenarioQuestions), [("1", JVal.str "B")],
      JVal.null, Step.quiz⟩ scenarioQuestions rfl rfl (by decide)
    ⟨scenarioQuestion2, by simp [scenarioQuestions], Or.inl rfl⟩
  exact ⟨s', h, he, hs, ha⟩

/-- C9: from every session, `handleReset` gives the step `input`, no question
set, the empty answer map and no score; apart from the `loading` flag, which
it does not touch, the result is the initial session. -/
theorem reset_clears_session (s : Session) :
    (handleReset s).currentStep = Step.input ∧ (handleReset s).questions = some JVal.null ∧
    (handleReset s).answers = [] ∧ (handleReset s).score = JVal.null ∧
    (handleReset s).error = none ∧ (handleReset s).youtubeUrl = "" ∧
    handleReset s = { initialSession with loading := s.loading } :=
  ⟨rfl, rfl, rfl, rfl, rfl, rfl, rfl⟩

/-! ## The answer map as it is built by answer updates -/

theorem lookupProp_eq_none_iff (k : String) :
    ∀ A : List (String × JVal), lookupProp k A = none ↔ k ∉ A.map Prod.fst
  | [] => by simp [lookupProp]
  | (k', v) :: rest => by
    have ih := lookupProp_eq_none_iff k rest
    by_cases hk : k' = k
    · simp [lookupProp, hk]
    · have hk2 : ¬ k = k' := fun e => hk e.symm
      simp [lookupProp, hk, hk2, ih]

theorem lookupProp_mem {k : String} {v : JVal} :
    ∀ A : List (String × JVal), lookupProp k A = some v → (k, v) ∈ A
  | [], h => by simp [lookupProp] at h
  | (k', w) :: rest, h => by
    by_cases hk : k' = k
    · simp only [lookupProp, hk, ↓reduceIte, Option.some.injEq] at h
      simp [hk, h]
    · simp only [lookupProp, hk, ↓reduceIte] at h
      exact List.mem_cons_of_mem _ (lookupProp_mem rest h)

theorem setProp_keys (k : String) (v : JVal) :
    ∀ A : List (String × JVal), (setProp k v A).map Prod.fst
      = if k ∈ A.map Prod.fst then A.map Prod.fst else A.map Prod.fst ++ [k]
  | [] => by simp [setProp]
  | (k', w) :: rest => by
    have ih := setProp_keys k v rest
    by_cases hk : k' = k
    · simp [setProp, hk]
    · have hk2 : ¬ k = k' := fun e => hk e.symm
      by_cases hmem : k ∈ rest.map Prod.fst
      · simp only [hmem, ↓reduceIte] at ih
        simp only [setProp, hk, ↓reduceIte, List.map_cons, ih, List.mem_cons, hmem, or_true]
      · simp only [hmem, ↓reduceIte] at ih
        simp only [setProp, hk, ↓reduceIte, List.map_cons, ih, List.mem_cons, hmem, hk2,
          or_self, List.cons_append]

theorem mem_setProp {k : String} {v : JVal} {kv : String × JVal} :
    ∀ A : List (String × JVal), kv ∈ setProp k v A → kv = (k, v) ∨ kv ∈ A
  | [], h => by
    simp only [setProp, List.mem_singleton] at h
    exact Or.inl h
  | (k', w) :: rest, h => by
    by_cases hk : k' = k
    · simp only [setProp, hk, ↓reduceIte, List.mem_cons] at h
      rcases h with h | h
      · exact Or.inl h
      · exact Or.inr (List.mem_cons_of_mem _ h)
    · simp only [setProp, hk, ↓reduceIte, List.mem_cons] at h
      rcases h with h | h
      · exact Or.inr (by simp [h])
      · rcases mem_setProp rest h with h | h
        · exact Or.inl h
        · exact Or.inr (List.mem_cons_of_mem _ h)

/-- Answer updates whose keys convert without error into `K`, with non-empty
option strings, keep the answer map free of repeated keys, inside `K`, and
with non-empty strings as values; they leave the questions alone. -/
theorem answerChanges_invariant (K : List (Option String)) :
    ∀ (updates : List (Option JVal × JVal)) (s : Session),
      (s.answers.map Prod.fst).Nodup →
      (∀ kv ∈ s.answers, some kv.1 ∈ K ∧ ∃ opt, kv.2 = JVal.str opt ∧ opt ≠ "") →
      (∀ u ∈ updates, (∃ k, toStrU u.1 = some k ∧ some k ∈ K) ∧
        ∃ opt, u.2 = JVal.str opt ∧ opt ≠ "") →
      ((answerChanges updates s).answers.map Prod.fst).Nodup ∧
      (∀ kv ∈ (answerChanges updates s).answers,
        some kv.1 ∈ K ∧ ∃ opt, kv.2 = JVal.str opt ∧ opt ≠ "") ∧
      (answerChanges updates s).questions = s.questions
  | [], s, hnd, hval, _ => ⟨hnd, hval, rfl⟩
  | (id, sel) :: rest, s, hnd, hval, hup => by
    obtain ⟨⟨k, hk, hkK⟩, hopt⟩ := hup (id, sel) (List.mem_cons_self _ _)
    simp only at hk hopt
    have hrest : ∀ u ∈ rest, (∃ k, toStrU u.1 = some k ∧ some k ∈ K) ∧
        ∃ opt, u.2 = JVal.str opt ∧ opt ≠ "" :=
      fun u hu => hup u (List.mem_cons_of_mem _ hu)
    have hstep : handleAnswerChange id sel s = { s with answers := setProp k sel s.answers } := by
      simp [handleAnswerChange, hk]
    have hnd1 : ((handleAnswerChange id sel s).answers.map Prod.fst).Nodup := by
      rw [hstep]
      simp only [setProp_keys]
      by_cases hmem : k ∈ s.answers.map Prod.fst
      · simpa only [hmem, ↓reduceIte] using hnd
      · simp only [hmem, ↓reduceIte]
        exact List.Nodup.append hnd (List.nodup_singleton _)
          (by simpa [List.disjoint_singleton] using hmem)
    have hval1 : ∀ kv ∈ (handleAnswerChange id sel s).answers,
        some kv.1 ∈ K ∧ ∃ opt, kv.2 = JVal.str opt ∧ opt ≠ "" := by
      intro kv hkv
      rw [hstep] at hkv
      rcases mem_setProp s.answers hkv with h | h
      · subst h
        exact ⟨hkK, hopt⟩
      · exact hval kv h
    have hq1 : (handleAnswerChange id sel s).questions = s.questions := by
      rw [hstep]
    have ih := answerChanges_invariant K rest (handleAnswerChange id sel s) hnd1 hval1 hrest
    exact ⟨ih.1, ih.2.1, ih.2.2.trans hq1⟩

theorem truthy_lookupProp_iff (A : List (String × JVal))
    (hval : ∀ kv ∈ A, ∃ opt, kv.2 = JVal.str opt ∧ opt ≠ "") (k : String) :
    truthy (lookupProp k A) = true ↔ k ∈ A.map Prod.fst := by
  cases hl : lookupProp k A with
  | none =>
    have := (lookupProp_eq_none_iff k A).mp hl
    simp [truthy, this]
  | some v =>
    have hmem : k ∈ A.map Prod.fst := by
      by_contra hcon
      rw [(lookupProp_eq_none_iff k A).mpr hcon] at hl
      exact absurd hl (by simp)
    obtain ⟨opt, hopt, hne⟩ := hval (k, v) (lookupProp_mem A hl)
    simp only at hopt
    subst hopt
    simp [truthy, hne, hmem]

theorem length_eq_iff_subset {α : Type} [DecidableEq α] {l K : List α} (hl : l.Nodup)
    (hK : K.Nodup) (hsub : l ⊆ K) : l.length = K.length ↔ K ⊆ l := by
  constructor
  · intro hlen
    have hperm : l.Perm K :=
      (List.subperm_of_subset hl hsub).perm_of_length_le (by omega)
    exact hperm.symm.subset
  · intro hKl
    have hperm : l.Perm K :=
      (List.subperm_of_subset hl hsub).antisymm (List.subperm_of_subset hK hKl)
    exact hperm.length_eq

theorem questionKeys_nodup (qs : List JVal) (hq : ∀ q ∈ qs, isQuestion q = true)
    (hids : (qs.map (fun q => getProp q "id")).Nodup) :
    (qs.map (fun q => toStrU (getProp q "id"))).Nodup := by
  have hmap : qs.map (fun q => toStrU (getProp q "id"))
      = (qs.map (fun q => getProp q "id")).map toStrU := by
    simp [List.map_map, Function.comp]
  rw [hmap]
  refine List.Nodup.map_on ?_ hids
  intro x hx y hy hxy
  obtain ⟨q, hqm, rfl⟩ := List.mem_map.mp hx
  obtain ⟨r, hrm, rfl⟩ := List.mem_map.mp hy
  obtain ⟨props, n, _, _, rfl, h1, -, -⟩ := isQuestion_fields (hq q hqm)
  obtain ⟨props2, m, _, _, rfl, h2, -, -⟩ := isQuestion_fields (hq r hrm)
  simp only [getProp, h1, h2, toStrU, toStr] at hxy ⊢
  rw [toString_int_injective (Option.some.inj hxy)]

theorem isQuestion_numericId {q : JVal} (h : isQuestion q = true) :
    ∃ props n, q = JVal.obj props ∧ lookupProp "id" props = some (JVal.num n) := by
  obtain ⟨props, n, _, _, hq, hid, -, -⟩ := isQuestion_fields h
  exact ⟨props, n, hq, hid⟩

theorem submitCheckPasses_iff_filter (s : Session) (qs : List JVal)
    (hqs : s.questions = some (JVal.arr qs))
    (hobj : ∀ q ∈ qs, ∃ props n, q = JVal.obj props ∧
      lookupProp "id" props = some (JVal.num n)) :
    submitCheckPasses s = true
      ↔ ∀ q ∈ qs, truthy (storedAnswer s.answers q) = true := by
  simp only [submitCheckPasses, hqs, unansweredOf_eq_filter s.answers qs hobj]
  simp [List.filter_eq_nil_iff, Nat.pos_iff_ne_zero]

theorem handleSubmitQuiz_sends_iff (s : Session) (qs : List JVal)
    (hqs : s.questions = some (JVal.arr qs))
    (hobj : ∀ q ∈ qs, ∃ props n, q = JVal.obj props ∧
      lookupProp "id" props = some (JVal.num n)) :
    submitCheckPasses s = true
      ↔ ∀ fetchScore : JVal → FetchResult, ∃ s' request,
          handleSubmitQuiz fetchScore s = some (s', [request]) := by
  have htq : truthy (some (JVal.arr qs)) = true := rfl
  unfold submitCheckPasses handleSubmitQuiz
  simp only [hqs, htq, unansweredOf_eq_filter s.answers qs hobj, Bool.not_true,
    Bool.false_eq_true, ↓reduceIte]
  by_cases hpos : (qs.filter (fun q => !truthy (storedAnswer s.answers q))).length > 0
  · simp only [hpos, decide_True, Bool.not_true, Bool.false_eq_true, ↓reduceIte, false_iff]
    intro hall
    obtain ⟨s', request, h⟩ := hall (fun _ => FetchResult.failed "")
    simp at h
  · simp only [hpos, decide_False, Bool.not_false, ↓reduceIte, true_iff]
    intro fetchScore
    split
    · exact ⟨_, _, rfl⟩
    · exact ⟨_, _, rfl⟩
    · exact ⟨_, _, rfl⟩

/-- C11: for every set of well-formed questions with pairwise distinct ids
and every answer map built from the empty map by answer updates for ids of
that set with non-empty option strings, the key count of the answer map
equals the number of questions (the Submit button's enabling condition)
exactly when the completeness check of `handleSubmitQuiz` passes, that is,
exactly when every question has a non-empty entry, and exactly when the
handler goes on to send the score request. -/
theorem submit_enabled_iff_complete (qs : List JVal) (updates : List (Option JVal × JVal))
    (s0 : Session) (hq : ∀ q ∈ qs, isQuestion q = true)
    (hids : (qs.map (fun q => getProp q "id")).Nodup)
    (hqs : s0.questions = some (JVal.arr qs)) (hempty : s0.answers = [])
    (hup : ∀ u ∈ updates, (∃ q ∈ qs, u.1 = getProp q "id") ∧
      ∃ opt, u.2 = JVal.str opt ∧ opt ≠ "") :
    (keyCountDiffers (answerChanges updates s0) = false
      ↔ submitCheckPasses (answerChanges updates s0) = true) ∧
    (submitCheckPasses (answerChanges updates s0) = true
      ↔ ∀ q ∈ qs, ∃ opt, opt ≠ "" ∧
          storedAnswer (answerChanges updates s0).answers q = some (JVal.str opt)) ∧
    (submitCheckPasses (answerChanges updates s0) = true
      ↔ ∀ fetchScore : JVal → FetchResult, ∃ s' request,
          handleSubmitQuiz fetchScore (answerChanges updates s0) = some (s', [request])) := by
  have hobj : ∀ q ∈ qs, ∃ props n, q = JVal.obj props ∧
      lookupProp "id" props = some (JVal.num n) := fun q hm => isQuestion_numericId (hq q hm)
  have hkey : ∀ q ∈ qs, ∃ k, toStrU (getProp q "id") = some k := by
    intro q hm
    obtain ⟨props, n, rfl, hid⟩ := hobj q hm
    exact ⟨toString n, by simp [getProp, hid, toStrU_num]⟩
  have hK := questionKeys_nodup qs hq hids
  have hup2 : ∀ u ∈ updates,
      (∃ k, toStrU u.1 = some k ∧ some k ∈ qs.map (fun q => toStrU (getProp q "id"))) ∧
      ∃ opt, u.2 = JVal.str opt ∧ opt ≠ "" := by
    intro u hu
    obtain ⟨⟨q, hqm, hid⟩, hopt⟩ := hup u hu
    obtain ⟨k, hk⟩ := hkey q hqm
    exact ⟨⟨k, by rw [hid, hk], List.mem_map.mpr ⟨q, hqm, hk⟩⟩, hopt⟩
  obtain ⟨hnd, hval, hquest⟩ := answerChanges_invariant
    (qs.map (fun q => toStrU (getProp q "id"))) updates s0
    (by rw [hempty]; exact List.nodup_nil) (by rw [hempty]; intro kv hkv; cases hkv) hup2
  rw [hqs] at hquest
  have hvalue : ∀ kv ∈ (answerChanges updates s0).answers,
      ∃ opt, kv.2 = JVal.str opt ∧ opt ≠ "" := fun kv hkv => (hval kv hkv).2
  have hnd2 : (((answerChanges updates s0).answers.map Prod.fst).map some).Nodup :=
    hnd.map (Option.some_injective String)
  have hsub : ((answerChanges updates s0).answers.map Prod.fst).map some
      ⊆ qs.map (fun q => toStrU (getProp q "id")) := by
    intro k hk
    obtain ⟨k', hk', rfl⟩ := List.mem_map.mp hk
    obtain ⟨kv, hkv, rfl⟩ := List.mem_map.mp hk'
    exact (hval kv hkv).1
  have hcheck := submitCheckPasses_iff_filter (answerChanges updates s0) qs hquest hobj
  have hcount : keyCountDiffers (answerChanges updates s0) = false
      ↔ (((answerChanges updates s0).answers.map Prod.fst).map some).length
          = (qs.map (fun q => toStrU (getProp q "id"))).length := by
    simp [keyCountDiffers, hquest, getProp, objectKeys, List.Nodup.dedup hnd, strictEq]
  have hall : (∀ q ∈ qs, truthy (storedAnswer (answerChanges updates s0).answers q) = true)
      ↔ qs.map (fun q => toStrU (getProp q "id"))
          ⊆ ((answerChanges updates s0).answers.map Prod.fst).map some := by
    constructor
    · intro h k hk
      obtain ⟨q, hqm, rfl⟩ := List.mem_map.mp hk
      obtain ⟨k, hk⟩ := hkey q hqm
      have ht := h q hqm
      simp only [storedAnswer, hk] at ht
      rw [hk]
      exact List.mem_map.mpr ⟨k, (truthy_lookupProp_iff _ hvalue k).mp ht, rfl⟩
    · intro h q hqm
      obtain ⟨k, hk⟩ := hkey q hqm
      have hmem := h (List.mem_map.mpr ⟨q, hqm, rfl⟩)
      rw [hk] at hmem
      obtain ⟨k', hk', hkk⟩ := List.mem_map.mp hmem
      have hkeq : k' = k := Option.some.inj hkk
      subst hkeq
      simp only [storedAnswer, hk]
      exact (truthy_lookupProp_iff _ hvalue k').mpr hk'
  refine ⟨?_, ?_, handleSubmitQuiz_sends_iff _ qs hquest hobj⟩
  · rw [hcount, length_eq_iff_subset hnd2 hK hsub, ← hall, hcheck]
  · rw [hcheck]
    constructor
    · intro h q hqm
      have ht := h q hqm
      obtain ⟨k, hk⟩ := hkey q hqm
      cases hl : storedAnswer (answerChanges updates s0).answers q with
      | none => simp [hl, truthy] at ht
      | some v =>
        have hl2 : lookupProp k (answerChanges updates s0).answers = some v := by
          simpa only [storedAnswer, hk] using hl
        obtain ⟨opt, hopt, hne⟩ := hvalue (_, v) (lookupProp_mem _ hl2)
        exact ⟨opt, hne, by rw [← hopt]⟩
    · intro h q hqm
      obtain ⟨opt, hne, hst⟩ := h q hqm
      simp [hst, truthy, hne]

/-- Witness of C11: the two scenario questions, answered 1, 2 and 1 again;
the key count matches, the check passes and the request is sent. -/
theorem submit_enabled_iff_complete_witness :
    keyCountDiffers (answerChanges
        [(some (JVal.num 1), JVal.str "B"), (some (JVal.num 2), JVal.str "Z"),
          (some (JVal.num 1), JVal.str "A")]
        ⟨"u", false, none, some (JVal.arr scenarioQuestions), [], JVal.null, Step.quiz⟩)
      = false ∧
    submitCheckPasses (answerChanges
        [(some (JVal.num 1), JVal.str "B"), (some (JVal.num 2), JVal.str "Z"),
          (some (JVal.num 1), JVal.str "A")]
        ⟨"u", false, none, some (JVal.arr scenarioQuestions), [], JVal.null, Step.quiz⟩)
      = true := by
  have h := (submit_enabled_iff_complete scenarioQuestions
    [(some (JVal.num 1), JVal.str "B"), (some (JVal.num 2), JVal.str "Z"),
      (some (JVal.num 1), JVal.str "A")]
    ⟨"u", false, none, some (JVal.arr scenarioQuestions), [], JVal.null, Step.quiz⟩
    (by decide)
    (by simp [scenarioQuestions, scenarioQuestion1, scenarioQuestion2, getProp, lookupProp])
    rfl rfl
    (by
      intro u hu
      simp only [List.mem_cons, List.mem_singleton, List.mem_nil_iff, or_false] at hu
      rcases hu with rfl | rfl | rfl
      · exact ⟨⟨scenarioQuestion1, by simp [scenarioQuestions], rfl⟩, "B", rfl, by decide⟩
      · exact ⟨⟨scenarioQuestion2, by simp [scenarioQuestions], rfl⟩, "Z", rfl, by decide⟩
      · exact ⟨⟨scenarioQuestion1, by simp [scenarioQuestions], rfl⟩, "A", rfl, by decide⟩)).1
  exact ⟨h.mpr rfl, h.mp (h.mpr rfl)⟩

/-- The hypothesis of numeric ids matters: a question with the number `1` as
id and a question with the string `"1"` as id share the property key `"1"`,
so one answer update completes both questions while the answer map has one key. -/
theorem mixed_ids_share_key :
    keyCountDiffers (answerChanges [(some (JVal.num 1), JVal.str "B")]
        ⟨"u", false, none, some (JVal.arr [JVal.obj [("id", JVal.num 1)],
          JVal.obj [("id", JVal.str "1")]]), [], JVal.null, Step.quiz⟩) = true ∧
    submitCheckPasses (answerChanges [(some (JVal.num 1), JVal.str "B")]
        ⟨"u", false, none, some (JVal.arr [JVal.obj [("id", JVal.num 1)],
          JVal.obj [("id", JVal.str "1")]]), [], JVal.null, Step.quiz⟩) = true :=
  ⟨by rfl, by rfl⟩

end QnaGen
